import Mathlib

/-!
Verification of the hematocrit-transport core of the haima repository.

The definitions below are a shallow embedding of the functions in
src/include/problemHT_prec.cpp (class problemHT) and of the parameter store
in src/include/param3d1d.hpp.  C++ doubles are modelled as real numbers
(or as rationals where only comparisons and ring operations occur, so that
concrete runs are decidable); gmm vectors are modelled as functions or
lists; fallible code (GMM_ASSERT1 throwing into GMM_STANDARD_CATCH_ERROR)
is modelled with Except.  Each definition carries a comment pointing to the
source lines it embeds.
-/

namespace HaimaSpec

/-! ## Vessel compliance model: problemHT::vessel_conductivity_vec
    (problemHT_prec.cpp, lines 1430-1531).

    The per-degree-of-freedom body of the double loop is embedded.  The
    function reads, for dof j of branch i: the undeformed radius Ru[j],
    wall thickness hu[j], internal and external pressures, the scalar
    parameters U_, P_, d, Gamma_, the dimensionless Young modulus Ei, the
    Poisson modulus nu, and the curvature param.Curv(i, indcv_loc); it
    produces the updated radius, cross-section area and perimeter (written
    back into the parameter store by replace_r / replace_area / replace_per)
    and the conductance cond[j]. -/

/-- Result of one per-dof compliance update: the values written back into
the parameter store (R, area, per) and the conductance cond[j]. -/
structure VCResult where
  R : ℝ
  area : ℝ
  per : ℝ
  cond : ℝ

/-- The constant named e in vessel_conductivity_vec (line 1448):
the source uses the literal 2.7182818284, not the exact Euler number. -/
noncomputable def eNap : ℝ := 2.7182818284

/-- The conductance expression shared verbatim by the arteriole branch
(line 1472) and the circular-venule branch (line 1486):
U_ /P_ /d *area *area *2.0*(Gamma_+2.0) /pi /R /R /R /R * (1 + Curv^2 R^2). -/
noncomputable def poiseuilleCond (U_ P_ d Gamma_ curv R area : ℝ) : ℝ :=
  U_ / P_ / d * area * area * 2.0 * (Gamma_ + 2.0) / Real.pi / R / R / R / R *
    (1.0 + curv * curv * R * R)

/-- Arteriole branch (ratio >= 0.1), lines 1462-1474.  The cross section
stays circular; R is the linear Lame correction of Ru. -/
noncomputable def arterioleOutcome (U_ P_ d Gamma_ Ei nu curv Ru hu p_int p_ext : ℝ) :
    VCResult :=
  let deltap := p_ext - p_int
  let den := (Ru + hu) * (Ru + hu) - Ru * Ru
  let B1 := (p_int * Ru * Ru - p_ext * (Ru + hu) * (Ru + hu)) / den
  let B2 := deltap * Ru * Ru * (Ru + hu) * (Ru + hu) / den
  let R := Ru * (1 + (1 - nu) / Ei * B1 - (1 + nu) / Ei * B2 / Ru / Ru)
  { R := R
    area := Real.pi * R * R
    per := 2.0 * Real.pi * R
    cond := poiseuilleCond U_ P_ d Gamma_ curv R (Real.pi * R * R) }

/-- Circular-venule branch (ratio < 0.1, deltap <= threshold),
lines 1480-1488. -/
noncomputable def venuleCircOutcome (U_ P_ d Gamma_ Ei nu curv Ru hu p_int p_ext : ℝ) :
    VCResult :=
  let deltap := p_ext - p_int
  let R := Ru * (1 - (1 - nu * nu) / (hu / Ru) / Ei * deltap)
  { R := R
    area := Real.pi * R * R
    per := 2 * Real.pi * R
    cond := poiseuilleCond U_ P_ d Gamma_ curv R (Real.pi * R * R) }

/-- The dimensionless pressure of the buckling law, line 1494:
p_adim = deltap *P_ *12 *(1-nu*nu) /(Ei*P_) /ratio /ratio /ratio. -/
noncomputable def p_adimOf (P_ Ei nu ratio deltap : ℝ) : ℝ :=
  deltap * P_ * 12 * (1 - nu * nu) / (Ei * P_) / ratio / ratio / ratio

/-- Buckled-venule branch (ratio < 0.1, deltap > threshold),
lines 1489-1514.  Rtmp = Ru (line 1490).  The area and the hydraulic
radius R = area/per are computed from the unclamped p_adim (lines
1499-1501); when p_adim >= 5 the parameter is clamped to 5 and both the
area and the resistance integral entering the conductance are recomputed
at 5 (lines 1506-1511), but the already-computed R is left as it is. -/
noncomputable def venuleBuckOutcome (P_ Ei nu Ru hu deltap : ℝ) : VCResult :=
  let p_adim := p_adimOf P_ Ei nu (hu / Ru) deltap
  let area := 15.95 * eNap ^ (-0.545 * p_adim) * Ru * Ru
  let per := 2 * Real.pi * Ru
  let R := area / per
  if p_adim < 5 then
    let int_u_star := 69.56 * eNap ^ (-1.74 * p_adim)
    { R := R, area := area, per := per
      cond := area * area / Ru / Ru / Ru / Ru / int_u_star }
  else
    let int_u_starfake := 69.56 * eNap ^ (-1.74 * (5 : ℝ))
    let area5 := 15.95 * eNap ^ (-0.545 * (5 : ℝ)) * Ru * Ru
    { R := R, area := area5, per := per
      cond := area5 * area5 / Ru / Ru / Ru / Ru / int_u_starfake }

/-- The full per-dof regime dispatch of vessel_conductivity_vec,
lines 1458-1514: ratio = hu/Ru selects the arteriole branch when >= 0.1;
otherwise the threshold 3*Ei*ratio^3/12/(1-nu^2) (line 1477) separates the
circular venule from the buckled venule. -/
noncomputable def vesselConductivityDof (U_ P_ d Gamma_ Ei nu curv Ru hu p_int p_ext : ℝ) :
    VCResult :=
  let deltap := p_ext - p_int
  if hu / Ru ≥ 0.1 then
    arterioleOutcome U_ P_ d Gamma_ Ei nu curv Ru hu p_int p_ext
  else
    let threshold := 3 * Ei * (hu / Ru) * (hu / Ru) * (hu / Ru) / 12.0 / (1 - nu * nu)
    if deltap ≤ threshold then
      venuleCircOutcome U_ P_ d Gamma_ Ei nu curv Ru hu p_int p_ext
    else
      venuleBuckOutcome P_ Ei nu Ru hu deltap

/-! ## Viscosity guard and mass-residual guard inside problemHT::solve_fixpoint. -/

/-- Per-dof viscosity update in solve_fixpoint (lines 1002-1025): the
empirical correlations viscosity_vivo / viscosity_vitro live outside this
repository, so the correlation is an abstract argument; the zero-hematocrit
guard if(h==0) mui = mu_plasma is the code under verification. -/
noncomputable def muiAtDof (viscosity : ℝ → ℝ → ℝ → ℝ) (h Rdim mu_plasma : ℝ) : ℝ :=
  if h = 0 then mu_plasma else viscosity h Rdim mu_plasma

/-- Mass-conservation residual of solve_fixpoint (lines 1279-1281):
resCM is initialised to 0 and the division by the total flow rate TFR is
performed only when TFR != 0. -/
noncomputable def massResidual (auxCM : List ℝ) (TFR : ℝ) : ℝ :=
  if TFR ≠ 0 then auxCM.sum / TFR else 0

/-! ## problemHT::iteration_solve (lines 643-671).

    The SuperLU solve of the cleaned matrix is an external collaborator and
    is abstracted as a function from right-hand sides to solutions; U_O is
    passed by value in the source, so the vector of the caller is untouched and
    the embedding is a pure function.  The source finally rescales its
    local copy of U_O by 1/(1-alfa); that copy is dead, so the rescaling
    does not affect the returned vector. -/

/-- gmm::scale of a vector by a scalar. -/
def gmmScale {ι : Type} (a : ℝ) (v : ι → ℝ) : ι → ℝ := fun k => a * v k

/-- gmm::add of two vectors (second argument accumulated into the first
in the source; the sum is the same). -/
def gmmAdd {ι : Type} (v w : ι → ℝ) : ι → ℝ := fun k => v k + w k

/-- problemHT::iteration_solve: solve A_HT U_new = F_N, then if alfa != 1
apply U_new := alfa*U_new, U_O := (1-alfa)*U_O, U_new := U_O + U_new. -/
noncomputable def iterationSolve {ι : Type} (alfa : ℝ)
    (superluSolve : (ι → ℝ) → ι → ℝ) (U_O F_N : ι → ℝ) : ι → ℝ :=
  let U_new := superluSolve F_N
  if alfa ≠ 1 then gmmAdd (gmmScale (1 - alfa) U_O) (gmmScale alfa U_new)
  else U_new

/-! ## Artificial diffusivity of problemHT::assembly_mat (lines 450-509).

    Scalars are modelled as rationals (the loop only compares, multiplies
    and takes absolute values, so the double-precision code and the
    rational model agree on rational inputs).  Branch i contributes its
    element-size estimates (convex_area_estimate over region i) and its
    velocity dofs Uvi. -/

/-- Element sizes and velocity dofs of one branch. -/
structure BranchData where
  sizes : List ℚ
  vels : List ℚ

/-- std max_element over a nonempty vector (the source never calls it on
an empty branch). -/
def cppMaxElement (l : List ℚ) : ℚ := l.foldl max (l.headD 0)

/-- std min_element over a nonempty vector. -/
def cppMinElement (l : List ℚ) : ℚ := l.foldl min (l.headD 0)

/-- Lines 496-502: max_U = the larger of the maximum velocity and the
absolute value of the minimum velocity. -/
def branchMaxU (vels : List ℚ) : ℚ :=
  let max_U_positive := cppMaxElement vels
  let max_U_negative := cppMinElement vels
  if max_U_positive > |max_U_negative| then max_U_positive else |max_U_negative|

/-- Lines 482-485: the inner loop over the elements of one branch region,
folded into the running max_size.  Note the source never resets max_size
between branches: the fold starts from the value carried over. -/
def foldSize (sizes : List ℚ) (max_size : ℚ) : ℚ :=
  sizes.foldl (fun ms temp => if temp > ms then temp else ms) max_size

/-- Lines 477-508: the branch loop carrying max_size and max_product. -/
def diffusivityScan : List BranchData → ℚ → ℚ → ℚ
  | [], _, max_product => max_product
  | b :: rest, max_size, max_product =>
    let ms := foldSize b.sizes max_size
    let max_U := branchMaxU b.vels
    let temp := max_U * ms
    diffusivityScan rest ms (if temp > max_product then temp else max_product)

/-- Line 509: Diffusivity = max_product * Theta/2, with max_size and
max_product both starting at 0 (lines 452-453). -/
def artificialDiffusivity (Theta : ℚ) (branches_ : List BranchData) : ℚ :=
  diffusivityScan branches_ 0 0 * Theta / 2

/-! ## The outer fixed-point loop of problemHT::solve_fixpoint
    (lines 938-1345).

    One loop body (geometry update, viscosity, assembly, the two linear
    solves, flow-rate computation) depends on external FEM collaborators
    and is abstracted as a function from the previous iterates (U_old,
    H_old) to the new iterates together with the three residuals computed
    at lines 1265-1281.  Residual comparisons are modelled over the
    rationals so that runs are decidable.  The loop structure, the
    continuation condition RK (line 1283), the iteration bound and what is
    returned after the loop (lines 1339-1345: UM := U_old, a non-fatal
    non-convergence message when RK is still set) are the code under
    verification. -/

/-- Output of one iteration body: the new iterates and the residuals
resSol (line 1265), resCM (lines 1279-1281) and resH (line 1267). -/
structure FPStep (V : Type) where
  U : V
  H : V
  resSol : ℚ
  resCM : ℚ
  resH : ℚ

/-- The while loop of solve_fixpoint: while(RK && iteration < max_iteration)
run the body, recompute RK = resSol>epsSol || fabs(resCM)>epsCM || resH>epsH
(line 1283), increment iteration, and on exit return the last iterate
(gmm::copy(U_old,UM), line 1339) together with the final RK flag (line 1344
prints the non-convergence message iff RK is still set) and the iteration
count. -/
def fpLoop {V : Type} (body : V → V → FPStep V) (epsSol epsCM epsH : ℚ)
    (max_iteration : ℕ) (U_old H_old : V) (iteration : ℕ) (RK : Bool) :
    V × V × Bool × ℕ :=
  if hcond : RK = true ∧ iteration < max_iteration then
    let s := body U_old H_old
    let RK2 := decide (s.resSol > epsSol ∨ |s.resCM| > epsCM ∨ s.resH > epsH)
    fpLoop body epsSol epsCM epsH max_iteration s.U s.H (iteration + 1) RK2
  else (U_old, H_old, RK, iteration)
termination_by max_iteration - iteration
decreasing_by
  simp_wf
  omega

/-- solve_fixpoint enters the loop with iteration = 0 and RK = 1
(lines 748-749). -/
def solveFixpointRun {V : Type} (body : V → V → FPStep V)
    (epsSol epsCM epsH : ℚ) (max_iteration : ℕ) (U0 H0 : V) :
    V × V × Bool × ℕ :=
  fpLoop body epsSol epsCM epsH max_iteration U0 H0 0 true

/-- The k-fold application of the loop body, used to state that the loop
returns exactly the last iterate it computed. -/
def fpIterates {V : Type} (body : V → V → FPStep V) : ℕ → V × V → V × V
  | 0, s => s
  | n + 1, s => fpIterates body n ((body s.1 s.2).U, (body s.1 s.2).H)

/-- A concrete loop body over scalar iterates whose solution residual never
meets the tolerance, used to evaluate the loop contract on an explicit
non-converging run. -/
def demoBody : ℚ → ℚ → FPStep ℚ :=
  fun U H => { U := U + 1, H := H + 1, resSol := 1, resCM := 0, resH := 0 }

/-! ## Network topology builder: problemHT::build_vessel_boundary
    (problemHT_prec.cpp, lines 125-405).

    The mesh is an unordered collection of 1D convexes; the branch regions
    0 .. nb_branches-1 and the incidence structure (convex_to_point) are
    inputs produced by the mesh import.  Radii (param.R(mimv, branch)) are
    kept in an abstract additive monoid so that concrete runs (taken over
    the integers below) are decidable.  GMM_ASSERT1 with a genuine boolean condition
    is modelled as Except.error (GMM_STANDARD_CATCH_ERROR at line 403
    terminates the construction); the two assertions written with an
    assignment instead of a comparison (found=true at line 175 and
    contained=true at lines 185, 214, 254, 272, 285, 319, 347) always
    succeed in C++ and therefore produce no error in the model.  The
    cerr messages at lines 150-153 do not throw in the source and are
    collected in a warnings list.  Writes through an out-of-range vector
    index (possible via the never-failing searches) are modelled as
    no-ops. -/

/-- A mesh convex.  For a 1D segment ind_points_of_face(1)[0] = 1 and
ind_points_of_face(0)[0] = 0, so i0 (line 157) is point 1 and i1
(line 158) is point 0 of the convex. -/
structure Convex where
  nbPoints : ℕ
  nbFaces : ℕ
  pts : ℕ → ℕ

/-- i0 of a convex: meshh.ind_points_of_convex(cv)[cvs->ind_points_of_face(1)[0]]. -/
def cvI0 (c : Convex) : ℕ := c.pts 1

/-- i1 of a convex: meshh.ind_points_of_convex(cv)[cvs->ind_points_of_face(0)[0]]. -/
def cvI1 (c : Convex) : ℕ := c.pts 0

/-- The 1D hematocrit mesh together with its branch regions and radii. -/
structure HTMesh (α : Type) where
  nbBranches : ℕ
  convexList : List ℕ
  convexOf : ℕ → Convex
  convexToPoint : ℕ → List ℕ
  regionIsIn : ℕ → ℕ → Bool
  hasRegionInit : ℕ → Bool
  R : ℕ → α

/-- A boundary-condition record (node_HT of BCv_HT). -/
structure BCRecord (α : Type) where
  label : String
  value : α
  idx : ℕ
  rg : ℕ
  branches : List ℤ
deriving DecidableEq

/-- A junction record (node_HT of Jv_HT). -/
structure JRecord (α : Type) where
  label : String
  value : α
  idx : ℕ
  rg : ℕ
  branches : List ℤ
deriving DecidableEq

/-- Mutable state of build_vessel_boundary. -/
structure BVBState (α : Type) where
  junctions : List ℕ
  extrema : List ℕ
  BCv : List (BCRecord α)
  Jv : List (JRecord α)
  nbExtrema : ℕ
  nbJunctions : ℕ
  fer : ℕ
  createdRegions : List ℕ
  warnings : List String
deriving DecidableEq

/-- Update of one list entry; an out-of-range index (C++ undefined
behaviour through operator[]) is modelled as a no-op. -/
def listModify {β : Type} : List β → ℕ → (β → β) → List β
  | [], _, _ => []
  | x :: xs, 0, f => f x :: xs
  | x :: xs, n + 1, f => x :: listModify xs n f

/-- meshh.has_region(r) at a point of the construction: the regions present
initially plus the single-face regions created so far. -/
def hasRegionState {α : Type} (m : HTMesh α) (s : BVBState α) (r : ℕ) : Bool :=
  m.hasRegionInit r || s.createdRegions.contains r

/-- The branch-membership search (lines 179-184 and its five twins):
while (!contained && branch<nb_branches) test region(branch).is_in(cv);
the loop leaves branch = nb_branches when no region contains cv, and the
subsequent GMM_ASSERT1(contained=true, ...) is an assignment that always
passes, so no error is possible here.  The loop is written with the number
of branches still to try as structural fuel (fuel = nb_branches - branch
throughout, so the guard branch < nb_branches is fuel > 0). -/
def searchBranchAux {α : Type} (m : HTMesh α) (cv : ℕ) : ℕ → ℕ → ℕ
  | 0, b => b
  | fuel + 1, b => if m.regionIsIn b cv then b else searchBranchAux m cv fuel (b + 1)

/-- The branch search started from branch 0. -/
def searchBranch {α : Type} (m : HTMesh α) (cv : ℕ) : ℕ :=
  searchBranchAux m cv m.nbBranches 0

/-- The second-branch search of the trivial-junction case (lines 313-318):
identical to the branch search but skipping firstbranch. -/
def searchSecondAux {α : Type} (m : HTMesh α) (cv firstbranch : ℕ) : ℕ → ℕ → ℕ
  | 0, b => b
  | fuel + 1, b =>
    if b ≠ firstbranch ∧ m.regionIsIn b cv then b
    else searchSecondAux m cv firstbranch fuel (b + 1)

/-- The second-branch search started from branch 0. -/
def searchSecond {α : Type} (m : HTMesh α) (cv firstbranch : ℕ) : ℕ :=
  searchSecondAux m cv firstbranch m.nbBranches 0

/-- Index search in BCv_HT (lines 169-174 and twins): first bc with
i == BCv_HT[bc].idx, else BCv.size(). -/
def findBC {α : Type} : List (BCRecord α) → ℕ → ℕ
  | [], _ => 0
  | r :: rest, v => if v = r.idx then 0 else findBC rest v + 1

/-- Index search in Jv_HT (lines 216-221 and 370-375): first jj with
i == Jv_HT[jj].idx, else nb_junctions. -/
def findJun {α : Type} : List (JRecord α) → ℕ → ℕ
  | [], _ => 0
  | r :: rest, v => if v = r.idx then 0 else findJun rest v + 1

/-- Attaching one signed branch entry to junction jj together with its
radius contribution.  The source performs Jv[jj].value += r and
Jv[jj].branches.emplace_back(e) as two separate statements (in either
order depending on the call site); the resulting record is the same. -/
def jvAttach {α : Type} [Add α] (J : List (JRecord α)) (jj : ℕ) (e : ℤ) (r : α) :
    List (JRecord α) :=
  listModify J jj (fun rec =>
    { rec with value := rec.value + r, branches := rec.branches ++ [e] })

/-- A freshly created junction record: Jv_HT.emplace_back("JUN", 0, i, fer). -/
def jvNew {α : Type} [Zero α] (v rg : ℕ) : JRecord α :=
  { label := "JUN", value := 0, idx := v, rg := rg, branches := [] }

/-- A freshly created Mixed boundary record: BCv_HT.emplace_back("MIX", 0.0, i1, fer). -/
def bcNewMix {α : Type} [Zero α] (v rg : ℕ) : BCRecord α :=
  { label := "MIX", value := 0, idx := v, rg := rg, branches := [] }

/-- The direction sign of a convex at a vertex (lines 321-331):
in = 0; if ind_points_of_convex(c)[0] == i then in = -1;
else if ind_points_of_convex(c)[1] == i then in = +1. -/
def inSign (c : Convex) (i : ℕ) : ℤ :=
  if c.pts 0 = i then -1 else if c.pts 1 = i then 1 else 0

/-- Attachment of the two branches of a fresh trivial junction
(lines 320-334): compute the direction sign of each incident convex at the
junction vertex (a zero sign is the fatal assertion of lines 325 and 331),
append the signed branch entries to the just-created record, and add both
radius contributions.  The source appends the two entries before adding
the two radii; the resulting record is the same. -/
def trivialJunctionStep {α : Type} [Add α] (m : HTMesh α) (s1 : BVBState α)
    (i1 firstbranch secondbranch firstcv secondcv : ℕ) : Except String (BVBState α) :=
  if inSign (m.convexOf firstcv) i1 = 0 then
    .error "There is something wrong in firstbranch convex index"
  else
    let s2 := { s1 with Jv := (jvAttach s1.Jv (s1.Jv.length - 1)
                  (inSign (m.convexOf firstcv) i1 * (firstbranch : ℤ))
                  (m.R firstbranch)) }
    if inSign (m.convexOf secondcv) i1 = 0 then
      .error "There is something wrong in secondbranch convex index"
    else
      .ok { s2 with Jv := (jvAttach s2.Jv (s2.Jv.length - 1)
              (inSign (m.convexOf secondcv) i1 * (secondbranch : ℤ))
              (m.R secondbranch)) }

/-- Processing of endpoint i0 of one convex (lines 160-227). -/
def processI0 {α : Type} [Zero α] [Add α] (m : HTMesh α) (s : BVBState α) (cv : ℕ) :
    Except String (BVBState α) :=
  let i0 := cvI0 (m.convexOf cv)
  if (m.convexToPoint i0).length = 1 then
    -- inflow extremum, lines 160-187
    if hasRegionState m s s.fer then .error "Overload in meshv region assembling!"
    else
      let s1 := { s with extrema := s.extrema ++ [i0], nbExtrema := s.nbExtrema + 1,
                         createdRegions := s.createdRegions ++ [s.fer] }
      let bc := findBC s1.BCv i0
      -- GMM_ASSERT1(found=true, ...) at line 175 never fails (assignment)
      let s2 := { s1 with BCv := listModify s1.BCv bc (fun r => { r with rg := s1.fer }),
                          fer := s1.fer + 1 }
      let branch := searchBranch m cv
      -- GMM_ASSERT1(contained=true, ...) at line 185 never fails (assignment)
      .ok { s2 with BCv := (listModify s2.BCv bc
              (fun r => { r with branches := r.branches ++ [(branch : ℤ)] })) }
  else if (m.convexToPoint i0).length = 2 then
    -- trivial inflow junction, lines 188-190: DO NOTHING
    .ok s
  else if 2 ≤ (m.convexToPoint i0).length then
    -- non-trivial inflow junction, lines 191-227
    let step1 : Except String (BVBState α) :=
      if i0 ∉ s.junctions then
        if hasRegionState m s s.fer then .error "Overload in meshv region assembling!"
        else .ok { s with junctions := s.junctions ++ [i0],
                          nbJunctions := s.nbJunctions + 1,
                          createdRegions := s.createdRegions ++ [s.fer],
                          Jv := s.Jv ++ [jvNew i0 s.fer],
                          fer := s.fer + 1 }
      else .ok s
    match step1 with
    | .error msg => .error msg
    | .ok s1 =>
      let branch := searchBranch m cv
      -- GMM_ASSERT1(contained=true, ...) at line 214 never fails (assignment)
      let jj := findJun s1.Jv i0
      let s2 := { s1 with Jv := jvAttach s1.Jv jj (-(branch : ℤ)) (m.R branch) }
      if 0 < branch then .ok s2
      else .error "Error in network labeling: -0 makes no sense"
  else .ok s

/-- Processing of endpoint i1 of one convex (lines 229-380). -/
def processI1 {α : Type} [Zero α] [Add α] (m : HTMesh α) (s : BVBState α) (cv : ℕ) :
    Except String (BVBState α) :=
  let i1 := cvI1 (m.convexOf cv)
  if (m.convexToPoint i1).length = 1 then
    let bc := findBC s.BCv i1
    if bc < s.BCv.length then
      -- outflow extremum, lines 236-256; BCv[bc].value *= 1.0 is the identity
      if hasRegionState m s s.fer then .error "Overload in meshv region assembling!"
      else
        let s1 := { s with extrema := s.extrema ++ [i1], nbExtrema := s.nbExtrema + 1,
                           createdRegions := s.createdRegions ++ [s.fer] }
        let s2 := { s1 with BCv := listModify s1.BCv bc (fun r => { r with rg := s1.fer }),
                            fer := s1.fer + 1 }
        let branch := searchBranch m cv
        .ok { s2 with BCv := (listModify s2.BCv bc
                (fun r => { r with branches := r.branches ++ [(branch : ℤ)] })) }
    else
      -- interior Mixed point, lines 257-274
      if hasRegionState m s s.fer then .error "Overload in meshv region assembling!"
      else
        let s1 := { s with createdRegions := s.createdRegions ++ [s.fer],
                           BCv := s.BCv ++ [bcNewMix i1 s.fer],
                           fer := s.fer + 1 }
        let branch := searchBranch m cv
        .ok { s1 with BCv := (listModify s1.BCv (s1.BCv.length - 1)
                (fun r => { r with branches := r.branches ++ [(branch : ℤ)] })) }
  else if (m.convexToPoint i1).length = 2 then
    -- possible trivial outflow junction, lines 276-337
    let firstbranch := searchBranch m cv
    let cv1 := (m.convexToPoint i1).getD 0 0
    let cv2 := (m.convexToPoint i1).getD 1 0
    if !(m.regionIsIn firstbranch cv1) || !(m.regionIsIn firstbranch cv2) then
      if i1 ∉ s.junctions then
        if hasRegionState m s s.fer then .error "Overload in meshv region assembling!"
        else
          let s1 := { s with junctions := s.junctions ++ [i1],
                             nbJunctions := s.nbJunctions + 1,
                             createdRegions := s.createdRegions ++ [s.fer],
                             Jv := s.Jv ++ [jvNew i1 s.fer],
                             fer := s.fer + 1 }
          let secondcv := if cv1 = cv then cv2 else cv1
          let firstcv := if cv1 ≠ cv then cv2 else cv1
          let secondbranch := searchSecond m secondcv firstbranch
          trivialJunctionStep m s1 i1 firstbranch secondbranch firstcv secondcv
      else .ok s
    else .ok s
  else if 2 ≤ (m.convexToPoint i1).length then
    -- non-trivial outflow junction, lines 338-380
    let branch := searchBranch m cv
    -- GMM_ASSERT1(contained=true, ...) at line 347 never fails (assignment)
    if i1 ∉ s.junctions then
      if hasRegionState m s s.fer then .error "Overload in meshv region assembling!"
      else
        let s1 := { s with junctions := s.junctions ++ [i1],
                           nbJunctions := s.nbJunctions + 1,
                           createdRegions := s.createdRegions ++ [s.fer],
                           Jv := s.Jv ++ [jvNew i1 s.fer] }
        let J2 := jvAttach s1.Jv (s1.Jv.length - 1) ((branch : ℤ)) (m.R branch)
        .ok { s1 with Jv := J2, fer := s1.fer + 1 }
    else
      let jj := findJun s.Jv i1
      .ok { s with Jv := jvAttach s.Jv jj ((branch : ℤ)) (m.R branch) }
  else .ok s

/-- Processing of one convex (lines 147-382): the two cerr diagnostics for
malformed convexes (lines 150-153) do not interrupt the loop and are
recorded as warnings; then both endpoints are handled. -/
def processConvex {α : Type} [Zero α] [Add α] (m : HTMesh α) (s : BVBState α) (cv : ℕ) :
    Except String (BVBState α) :=
  let c := m.convexOf cv
  let s0 := if 2 < c.nbPoints then
      { s with warnings := s.warnings ++ ["Error: convex has more than 2 vertices!"] }
    else s
  let s1 := if 2 < c.nbFaces then
      { s0 with warnings := s0.warnings ++ ["Error: convex has more than 2 faces!"] }
    else s0
  match processI0 m s1 cv with
  | .error msg => .error msg
  | .ok s2 => processI1 m s2 cv

/-- The convex loop (line 147). -/
def processAll {α : Type} [Zero α] [Add α] (m : HTMesh α) :
    BVBState α → List ℕ → Except String (BVBState α)
  | s, [] => .ok s
  | s, cv :: rest =>
    match processConvex m s cv with
    | .error msg => .error msg
    | .ok s1 => processAll m s1 rest

/-- The state at entry (lines 133-140): empty junction and extremum sets,
the imported BCv_HT list, empty Jv_HT, fer = nb_branches. -/
def initState {α : Type} (m : HTMesh α) (BCv0 : List (BCRecord α)) : BVBState α :=
  { junctions := [], extrema := [], BCv := BCv0, Jv := [], nbExtrema := 0,
    nbJunctions := 0, fer := m.nbBranches, createdRegions := [], warnings := [] }

/-- problemHT::build_vessel_boundary: the initial region-overload check of
line 141 followed by the convex loop. -/
def buildVesselBoundary {α : Type} [Zero α] [Add α] (m : HTMesh α)
    (BCv0 : List (BCRecord α)) : Except String (BVBState α) :=
  if m.hasRegionInit m.nbBranches then .error "Overload in meshv region assembling!"
  else processAll m (initState m BCv0) m.convexList

/-- Extract the final state of a successful run (used only to state
concrete-run theorems). -/
def stateOf {α : Type} : Except String (BVBState α) → BVBState α
  | .ok s => s
  | .error _ => { junctions := [], extrema := [], BCv := [], Jv := [], nbExtrema := 0,
                  nbJunctions := 0, fer := 0, createdRegions := [], warnings := [] }

/-- The junction-weight invariant: every junction record weighs the sum of
the radii of the branches in its incident list, one contribution per entry
(the sign only encodes direction). -/
def jWeightOk {α : Type} [AddMonoid α] (m : HTMesh α) (J : List (JRecord α)) : Prop :=
  ∀ j ∈ J, j.value = (j.branches.map (fun b => m.R b.natAbs)).sum

/-! ## Concrete meshes used to evaluate the builder on explicit inputs. -/

/-- A 3-branch Y network: branch b consists of convex b alone; vertex 1 is
the junction (degree 3); vertices 0, 2, 3 are boundary extrema.  Convex 0
is oriented so that the junction is its i1 endpoint, convexes 1 and 2 so
that the junction is their i0 endpoint.  Radii are 1, 2, 3. -/
def yMesh : HTMesh ℤ :=
  { nbBranches := 3
    convexList := [0, 1, 2]
    convexOf := fun cv =>
      if cv = 0 then { nbPoints := 2, nbFaces := 2, pts := fun n => if n = 0 then 1 else 0 }
      else if cv = 1 then { nbPoints := 2, nbFaces := 2, pts := fun n => if n = 0 then 2 else 1 }
      else { nbPoints := 2, nbFaces := 2, pts := fun n => if n = 0 then 3 else 1 }
    convexToPoint := fun v =>
      if v = 0 then [0] else if v = 1 then [0, 1, 2]
      else if v = 2 then [1] else if v = 3 then [2] else []
    regionIsIn := fun b cv => decide (b = cv ∧ cv < 3)
    hasRegionInit := fun r => decide (r < 3)
    R := fun b => if b = 0 then 1 else if b = 1 then 2 else if b = 2 then 3 else 0 }

/-- Pre-registered boundary records for the three extreme vertices of the
Y network (as produced by the mesh import). -/
def yBCv : List (BCRecord ℤ) :=
  [{ label := "DIR", value := 1, idx := 0, rg := 0, branches := [] },
   { label := "DIR", value := 0, idx := 2, rg := 0, branches := [] },
   { label := "DIR", value := 0, idx := 3, rg := 0, branches := [] }]

/-- The Y network with convex 0 flipped, so that branch 0 reaches the
junction through the i0 endpoint of its element. -/
def yMeshFlipped : HTMesh ℤ :=
  { yMesh with convexOf := fun cv =>
      if cv = 0 then { nbPoints := 2, nbFaces := 2, pts := fun n => if n = 0 then 0 else 1 }
      else yMesh.convexOf cv }

/-- A malformed one-branch mesh: its only convex reports 3 points, both of
its endpoints have incidence degree 3, and no branch region contains the
convex, so every region-membership search fails. -/
def badMesh : HTMesh ℤ :=
  { nbBranches := 1
    convexList := [0]
    convexOf := fun _ => { nbPoints := 3, nbFaces := 2, pts := fun n => if n = 0 then 9 else 7 }
    convexToPoint := fun v => if v = 7 then [0, 0, 0] else if v = 9 then [0, 0, 0] else []
    regionIsIn := fun _ _ => false
    hasRegionInit := fun r => decide (r < 1)
    R := fun _ => 1 }

/-! ## Theorems. -/

/-- Claim C6: numerical-degeneracy inputs are guarded.  When the local
hematocrit is exactly zero the viscosity update returns the plasma
viscosity without evaluating the empirical correlation (the result is
independent of the correlation function), and when the flow-rate
denominator of the mass-conservation residual is zero the division is
skipped and the residual keeps its initialised value 0. -/
theorem numerical_degeneracy_guards :
    (∀ (viscosity : ℝ → ℝ → ℝ → ℝ) (Rdim mu_plasma : ℝ),
        muiAtDof viscosity 0 Rdim mu_plasma = mu_plasma) ∧
    (∀ auxCM : List ℝ, massResidual auxCM 0 = 0) := by
  constructor
  · intro f Rdim mp
    simp [muiAtDof]
  · intro l
    simp [massResidual]

/-- Claim C7: iteration_solve returns alfa times the freshly solved
solution plus (1 - alfa) times the old iterate, componentwise; with
alfa = 1 the relaxation block is skipped and the raw solved solution is
returned unchanged.  The old iterate is an immutable argument of the
embedding (it is passed by value in the source). -/
theorem iteration_solve_under_relaxation {ι : Type} (alfa : ℝ)
    (superluSolve : (ι → ℝ) → ι → ℝ) (U_O F_N : ι → ℝ) :
    (∀ k, iterationSolve alfa superluSolve U_O F_N k
        = alfa * superluSolve F_N k + (1 - alfa) * U_O k) ∧
    iterationSolve 1 superluSolve U_O F_N = superluSolve F_N := by
  constructor
  · intro k
    by_cases h : alfa = 1
    · subst h
      simp [iterationSolve]
    · simp only [iterationSolve, if_pos h, gmmAdd, gmmScale]
      ring
  · simp [iterationSolve]

/-- Claim C2 (code bug): the artificial diffusivity actually computed by
assembly_mat.  On the two-branch input where branch 0 has element size 10
and velocity 1 while branch 1 has element size 1 and velocity 5, with
Theta = 2, the code yields 50, because max_size is never reset between
branches; the formula of the claim - Theta/2 times the maximum over
branches of (max abs velocity times the maximum element size of that same
branch) - yields 10 on the same input. -/
theorem artificial_diffusivity_running_max :
    artificialDiffusivity 2 [{ sizes := [10], vels := [1] }, { sizes := [1], vels := [5] }] = 50 ∧
    (2 : ℚ) / 2 * max (branchMaxU [1] * foldSize [10] 0) (branchMaxU [5] * foldSize [1] 0) = 10 := by
  constructor
  · norm_num [artificialDiffusivity, diffusivityScan, foldSize, branchMaxU,
      cppMaxElement, cppMinElement]
  · norm_num [branchMaxU, foldSize, cppMaxElement, cppMinElement]

/-- Claim C3: in the buckled-venule regime, every degree of freedom whose
dimensionless pressure exceeds 5 receives exactly the conductance of a
degree of freedom whose dimensionless pressure equals 5: the parameter is
clamped to 5 before the exponential area law and the resistance-integral
law that enter the conductance. -/
theorem buckled_venule_conductance_clamped (P_ Ei nu Ru hu dp dp5 : ℝ)
    (hgt : 5 < p_adimOf P_ Ei nu (hu / Ru) dp)
    (heq : p_adimOf P_ Ei nu (hu / Ru) dp5 = 5) :
    (venuleBuckOutcome P_ Ei nu Ru hu dp).cond
      = (venuleBuckOutcome P_ Ei nu Ru hu dp5).cond := by
  simp only [venuleBuckOutcome]
  rw [heq, if_neg (lt_irrefl (5 : ℝ)), if_neg (not_lt.mpr hgt.le)]

/-- Witness for claim C3 at concrete parameters where p_adim equals the
raw pressure difference: p_adim(6) = 6 > 5 and p_adim(5) = 5. -/
theorem buckled_venule_conductance_clamped_witness :
    (venuleBuckOutcome 1 12 0 1 1 6).cond = (venuleBuckOutcome 1 12 0 1 1 5).cond :=
  buckled_venule_conductance_clamped 1 12 0 1 1 6 5
    (by norm_num [p_adimOf]) (by norm_num [p_adimOf])

/-- For a circular cross section (area = pi R^2) with nonzero radius the
conductance expression of the source collapses to a value independent of
the radius up to the curvature factor. -/
theorem poiseuilleCond_eval (U_ P_ d Gamma_ curv R : ℝ) (hR : R ≠ 0) :
    poiseuilleCond U_ P_ d Gamma_ curv R (Real.pi * R * R)
      = U_ / P_ / d * 2 * (Gamma_ + 2) * Real.pi * (1 + curv * curv * R * R) := by
  have hpi := Real.pi_ne_zero
  unfold poiseuilleCond
  norm_num
  rw [div_div, div_div, div_div, div_div]
  left
  rw [div_eq_iff (by simp [hpi, hR] : Real.pi * (R * (R * (R * R))) ≠ 0)]
  field_simp
  ring

/-- The arteriole conductance in terms of the deformed radius. -/
theorem arteriole_cond_eval (U_ P_ d Gamma_ Ei nu curv Ru hu p_int p_ext : ℝ)
    (hR : (arterioleOutcome U_ P_ d Gamma_ Ei nu curv Ru hu p_int p_ext).R ≠ 0) :
    (arterioleOutcome U_ P_ d Gamma_ Ei nu curv Ru hu p_int p_ext).cond
      = U_ / P_ / d * 2 * (Gamma_ + 2) * Real.pi *
          (1 + curv * curv * (arterioleOutcome U_ P_ d Gamma_ Ei nu curv Ru hu p_int p_ext).R
            * (arterioleOutcome U_ P_ d Gamma_ Ei nu curv Ru hu p_int p_ext).R) := by
  simp only [arterioleOutcome] at hR ⊢
  exact poiseuilleCond_eval _ _ _ _ _ _ hR

/-- The circular-venule conductance in terms of the deformed radius. -/
theorem venuleCirc_cond_eval (U_ P_ d Gamma_ Ei nu curv Ru hu p_int p_ext : ℝ)
    (hR : (venuleCircOutcome U_ P_ d Gamma_ Ei nu curv Ru hu p_int p_ext).R ≠ 0) :
    (venuleCircOutcome U_ P_ d Gamma_ Ei nu curv Ru hu p_int p_ext).cond
      = U_ / P_ / d * 2 * (Gamma_ + 2) * Real.pi *
          (1 + curv * curv * (venuleCircOutcome U_ P_ d Gamma_ Ei nu curv Ru hu p_int p_ext).R
            * (venuleCircOutcome U_ P_ d Gamma_ Ei nu curv Ru hu p_int p_ext).R) := by
  simp only [venuleCircOutcome] at hR ⊢
  exact poiseuilleCond_eval _ _ _ _ _ _ hR

/-- Claim C4, counterexample: at thickness-to-radius ratio exactly 0.1,
with nonzero local curvature (curv = 1) the arteriole formula and the
circular-venule formula disagree by more than 100 on the concrete input
Ei = 1, nu = 0, p_int = 1, p_ext = 0, Ru = 1, hu = 1/10 (the deformed
radii are 242/21 and 11, and the conductance carries the factor
1 + curv^2 R^2), so the two formulas do not agree within floating-point
tolerance. -/
theorem regime_conductance_differ_at_ratio_boundary :
    (venuleCircOutcome 1 1 1 2 1 0 1 1 (1/10) 1 0).cond + 100
      < (arterioleOutcome 1 1 1 2 1 0 1 1 (1/10) 1 0).cond := by
  have hRa : (arterioleOutcome 1 1 1 2 1 0 1 1 (1/10) 1 0).R = 242/21 := by
    simp only [arterioleOutcome]
    norm_num
  have hRv : (venuleCircOutcome 1 1 1 2 1 0 1 1 (1/10) 1 0).R = 11 := by
    simp only [venuleCircOutcome]
    norm_num
  have ea := arteriole_cond_eval 1 1 1 2 1 0 1 1 (1/10) 1 0 (by rw [hRa]; norm_num)
  have ev := venuleCirc_cond_eval 1 1 1 2 1 0 1 1 (1/10) 1 0 (by rw [hRv]; norm_num)
  rw [ea, ev, hRa, hRv]
  nlinarith [Real.pi_gt_three]

/-- Claim C4, amended: at ratio = 0.1 the arteriole and circular-venule
conductances agree exactly whenever the local curvature is zero (both
collapse to U/P/d times 2 (Gamma+2) pi, independently of the deformed
radius); with nonzero curvature they differ because the deformed radii
differ. -/
theorem regime_conductance_agree_without_curvature
    (U_ P_ d Gamma_ Ei nu Ru hu p_int p_ext : ℝ)
    (_hhu : hu = Ru / 10) (_hRu : Ru ≠ 0)
    (ha : (arterioleOutcome U_ P_ d Gamma_ Ei nu 0 Ru hu p_int p_ext).R ≠ 0)
    (hv : (venuleCircOutcome U_ P_ d Gamma_ Ei nu 0 Ru hu p_int p_ext).R ≠ 0) :
    (arterioleOutcome U_ P_ d Gamma_ Ei nu 0 Ru hu p_int p_ext).cond
      = (venuleCircOutcome U_ P_ d Gamma_ Ei nu 0 Ru hu p_int p_ext).cond := by
  rw [arteriole_cond_eval _ _ _ _ _ _ _ _ _ _ _ ha,
    venuleCirc_cond_eval _ _ _ _ _ _ _ _ _ _ _ hv]
  ring

/-- Witness for the amended claim C4 at Ei = 1, nu = 0, Ru = 1, hu = 1/10,
p_int = 1, p_ext = 0 (deformed radii 242/21 and 11, both nonzero). -/
theorem regime_conductance_agree_without_curvature_witness :
    (arterioleOutcome 1 1 1 2 1 0 0 1 (1/10) 1 0).cond
      = (venuleCircOutcome 1 1 1 2 1 0 0 1 (1/10) 1 0).cond :=
  regime_conductance_agree_without_curvature 1 1 1 2 1 0 1 (1/10) 1 0
    (by norm_num) (by norm_num)
    (by simp only [arterioleOutcome]; norm_num)
    (by simp only [venuleCircOutcome]; norm_num)

/-- Claim C9, counterexample: the relation stored radius = stored area /
stored perimeter does not hold for the circular regimes: for an arteriole
dof with equal internal and external pressures the stored radius is Ru = 1
while area/perimeter = pi/(2 pi) = 1/2. -/
theorem stored_radius_relation_fails_in_circular_regime :
    (arterioleOutcome 1 1 1 2 1 0 0 1 (1/5) 0 0).R
      ≠ (arterioleOutcome 1 1 1 2 1 0 0 1 (1/5) 0 0).area
        / (arterioleOutcome 1 1 1 2 1 0 0 1 (1/5) 0 0).per := by
  have hR : (arterioleOutcome 1 1 1 2 1 0 0 1 (1/5) 0 0).R = 1 := by
    simp only [arterioleOutcome]
    norm_num
  have harea : (arterioleOutcome 1 1 1 2 1 0 0 1 (1/5) 0 0).area = Real.pi := by
    simp only [arterioleOutcome]
    norm_num
  have hper : (arterioleOutcome 1 1 1 2 1 0 0 1 (1/5) 0 0).per = 2 * Real.pi := by
    simp only [arterioleOutcome]
    norm_num
  rw [hR, harea, hper]
  intro hcontra
  have h2pi : (2 : ℝ) * Real.pi ≠ 0 := by positivity
  rw [eq_comm, div_eq_iff h2pi] at hcontra
  have hpos := Real.pi_pos
  linarith

/-- Claim C9, amended: in the buckled-venule regime the stored radius is
the unclamped area divided by the perimeter; the relation stored radius =
stored area / stored perimeter therefore holds up to the clamp
(p_adim <= 5) and is violated for every dof with p_adim > 5 and positive
undeformed radius, because the stored area is re-evaluated at the clamp
while the stored radius is not. -/
theorem buckled_stored_radius_above_clamp (P_ Ei nu Ru hu dp : ℝ) :
    (p_adimOf P_ Ei nu (hu / Ru) dp ≤ 5 →
      (venuleBuckOutcome P_ Ei nu Ru hu dp).R
        = (venuleBuckOutcome P_ Ei nu Ru hu dp).area
          / (venuleBuckOutcome P_ Ei nu Ru hu dp).per) ∧
    (5 < p_adimOf P_ Ei nu (hu / Ru) dp → 0 < Ru →
      (venuleBuckOutcome P_ Ei nu Ru hu dp).R
        ≠ (venuleBuckOutcome P_ Ei nu Ru hu dp).area
          / (venuleBuckOutcome P_ Ei nu Ru hu dp).per) := by
  constructor
  · intro hle
    rcases lt_or_eq_of_le hle with hlt | heq5
    · simp only [venuleBuckOutcome, if_pos hlt]
    · simp only [venuleBuckOutcome, heq5, if_neg (lt_irrefl (5 : ℝ))]
  · intro hgt hRu
    simp only [venuleBuckOutcome, if_neg (not_lt.mpr hgt.le)]
    have hbase : (1 : ℝ) < eNap := by norm_num [eNap]
    have hexp : (-0.545) * p_adimOf P_ Ei nu (hu / Ru) dp < (-0.545) * 5 := by
      have : (-0.545 : ℝ) < 0 := by norm_num
      exact mul_lt_mul_of_neg_left hgt this
    have hrpow : eNap ^ (-0.545 * p_adimOf P_ Ei nu (hu / Ru) dp)
        < eNap ^ (-0.545 * (5 : ℝ)) :=
      Real.rpow_lt_rpow_of_exponent_lt hbase hexp
    have harea : 15.95 * eNap ^ (-0.545 * p_adimOf P_ Ei nu (hu / Ru) dp) * Ru * Ru
        < 15.95 * eNap ^ (-0.545 * (5 : ℝ)) * Ru * Ru := by
      have hRu2 : (0 : ℝ) < Ru * Ru := by positivity
      nlinarith [hrpow, hRu2]
    have hper : (0 : ℝ) < 2 * Real.pi * Ru := by positivity
    exact ne_of_lt ((div_lt_div_iff_of_pos_right hper).mpr harea)

/-- The loop either runs one more body application (when the previous
residual check failed and the bound is not reached) or stops; on stopping
it hands back the current iterate unchanged.  Stated relative to any entry
point of the loop. -/
theorem fpLoop_char {V : Type} (body : V → V → FPStep V) (e1 e2 e3 : ℚ) (maxIt : ℕ) :
    ∀ fuel it (U H : V) (RK : Bool), maxIt - it = fuel → it ≤ maxIt →
      ∃ k RKf, fpLoop body e1 e2 e3 maxIt U H it RK
          = ((fpIterates body k (U, H)).1, (fpIterates body k (U, H)).2, RKf, it + k)
        ∧ it + k ≤ maxIt
        ∧ ¬(RKf = true ∧ it + k < maxIt) := by
  intro fuel
  induction fuel with
  | zero =>
    intro it U H RK hf hle
    have hit : ¬ it < maxIt := by omega
    refine ⟨0, RK, ?_, by omega, by omega⟩
    rw [fpLoop, dif_neg (by tauto)]
    simp [fpIterates]
  | succ n ih =>
    intro it U H RK hf hle
    have hit : it < maxIt := by omega
    cases hRK : RK with
    | false =>
      refine ⟨0, false, ?_, by omega, by simp⟩
      rw [fpLoop, dif_neg (by simp)]
      simp [fpIterates]
    | true =>
      obtain ⟨k, RKf, heq, hle2, hexit⟩ :=
        ih (it + 1) (body U H).U (body U H).H
          (decide ((body U H).resSol > e1 ∨ |(body U H).resCM| > e2 ∨ (body U H).resH > e3))
          (by omega) (by omega)
      refine ⟨k + 1, RKf, ?_, by omega, ?_⟩
      swap
      · intro hand
        exact hexit ⟨hand.1, by omega⟩
      rw [fpLoop, dif_pos ⟨rfl, hit⟩]
      rw [heq]
      have hiter : fpIterates body (k + 1) (U, H)
          = fpIterates body k ((body U H).U, (body U H).H) := rfl
      rw [hiter]
      have hidx : it + 1 + k = it + (k + 1) := by omega
      rw [hidx]

/-- Claim C5: the outer fixed-point loop performs another iteration exactly
when the previous residual check left RK set (resSol > epsSol or
fabs(resCM) > epsCM or resH > epsH) and the iteration count is below the
maximum; and every run started at iteration 0 stops within the bound,
returns exactly its last computed iterate, and reports non-convergence
(final RK still set) only when the maximum iteration count was reached. -/
theorem solve_fixpoint_loop_contract {V : Type} (body : V → V → FPStep V)
    (epsSol epsCM epsH : ℚ) (max_iteration : ℕ) :
    (∀ (U H : V) (it : ℕ) (RK : Bool),
        fpLoop body epsSol epsCM epsH max_iteration U H it RK
          = if RK = true ∧ it < max_iteration then
              fpLoop body epsSol epsCM epsH max_iteration (body U H).U (body U H).H (it + 1)
                (decide ((body U H).resSol > epsSol ∨ |(body U H).resCM| > epsCM ∨
                  (body U H).resH > epsH))
            else (U, H, RK, it)) ∧
    (∀ U0 H0 : V,
        (solveFixpointRun body epsSol epsCM epsH max_iteration U0 H0).2.2.2 ≤ max_iteration ∧
        ((solveFixpointRun body epsSol epsCM epsH max_iteration U0 H0).1,
         (solveFixpointRun body epsSol epsCM epsH max_iteration U0 H0).2.1)
          = fpIterates body
              (solveFixpointRun body epsSol epsCM epsH max_iteration U0 H0).2.2.2 (U0, H0) ∧
        ((solveFixpointRun body epsSol epsCM epsH max_iteration U0 H0).2.2.1 = true →
          (solveFixpointRun body epsSol epsCM epsH max_iteration U0 H0).2.2.2 = max_iteration)) := by
  constructor
  · intro U H it RK
    by_cases h : RK = true ∧ it < max_iteration
    · rw [fpLoop, dif_pos h, if_pos h]
    · rw [fpLoop, dif_neg h, if_neg h]
  · intro U0 H0
    obtain ⟨k, RKf, heq, hle, hexit⟩ :=
      fpLoop_char body epsSol epsCM epsH max_iteration (max_iteration - 0) 0 U0 H0 true rfl
        (Nat.zero_le _)
    rw [Nat.zero_add] at heq
    simp only [Nat.zero_add] at hle hexit
    unfold solveFixpointRun
    rw [heq]
    refine ⟨hle, rfl, fun hRKf => ?_⟩
    show k = max_iteration
    have hRKf2 : RKf = true := hRKf
    have hnot : ¬ k < max_iteration := fun hlt => hexit ⟨hRKf2, hlt⟩
    omega

/-- Witness for claim C5: the loop contract evaluated on the concrete
never-converging body with bound 2, starting from the iterate (0, 0). -/
theorem solve_fixpoint_loop_contract_witness :
    (solveFixpointRun demoBody 0 0 0 2 0 0).2.2.2 ≤ 2 ∧
    ((solveFixpointRun demoBody 0 0 0 2 0 0).1, (solveFixpointRun demoBody 0 0 0 2 0 0).2.1)
      = fpIterates demoBody (solveFixpointRun demoBody 0 0 0 2 0 0).2.2.2 (0, 0) ∧
    ((solveFixpointRun demoBody 0 0 0 2 0 0).2.2.1 = true →
      (solveFixpointRun demoBody 0 0 0 2 0 0).2.2.2 = 2) :=
  (solve_fixpoint_loop_contract demoBody 0 0 0 2).2 0 0

/-- Witness for the amended claim C9: at the parameters of the C3 witness,
p_adim = 4 keeps the relation and p_adim = 6 breaks it. -/
theorem buckled_stored_radius_above_clamp_witness :
    ((venuleBuckOutcome 1 12 0 1 1 4).R
        = (venuleBuckOutcome 1 12 0 1 1 4).area / (venuleBuckOutcome 1 12 0 1 1 4).per) ∧
    ((venuleBuckOutcome 1 12 0 1 1 6).R
        ≠ (venuleBuckOutcome 1 12 0 1 1 6).area / (venuleBuckOutcome 1 12 0 1 1 6).per) :=
  ⟨(buckled_stored_radius_above_clamp 1 12 0 1 1 4).1 (by norm_num [p_adimOf]),
   (buckled_stored_radius_above_clamp 1 12 0 1 1 6).2 (by norm_num [p_adimOf]) (by norm_num)⟩

/-- Claim C1 (code bug): on the malformed one-branch mesh whose single
element reports three endpoints and is contained in no branch region,
build_vessel_boundary completes normally: the three-endpoint condition
only emits a cerr diagnostic, and the region-membership assertions are
written as assignments (contained=true) that cannot fail, so the failed
searches silently record the out-of-range branch index nb_branches = 1
in the junction records instead of aborting. -/
theorem build_vessel_boundary_swallows_topology_errors :
    (badMesh.convexOf 0).nbPoints = 3 ∧
    badMesh.regionIsIn 0 0 = false ∧
    (buildVesselBoundary badMesh ([] : List (BCRecord ℤ))).isOk = true ∧
    (stateOf (buildVesselBoundary badMesh ([] : List (BCRecord ℤ)))).warnings
      = ["Error: convex has more than 2 vertices!"] ∧
    (stateOf (buildVesselBoundary badMesh ([] : List (BCRecord ℤ)))).Jv.map
      (fun j => j.branches) = [[-1], [1]] := by
  refine ⟨rfl, rfl, by decide, by decide, by decide⟩

/-- When branch 0 contains the element, the first-fit branch search
returns 0. -/
theorem searchBranch_eq_zero {α : Type} (m : HTMesh α) (cv : ℕ)
    (hbr : m.regionIsIn 0 cv = true) : searchBranch m cv = 0 := by
  unfold searchBranch
  cases m.nbBranches with
  | zero => rfl
  | succ n =>
    unfold searchBranchAux
    rw [if_pos hbr]

/-- Claim C10: whenever an element whose first endpoint i0 is a
non-trivial junction vertex (incidence degree at least 3) belongs to
branch 0, processing that element ends in the fatal assertion
GMM_ASSERT1(branch>0) with the "-0 makes no sense" diagnostic, so branch 0
is never recorded as a signed inflow branch of such a junction. -/
theorem branch_zero_inflow_assertion_failure {α : Type} [Zero α] [Add α]
    (m : HTMesh α) (s : BVBState α) (cv : ℕ)
    (hdeg : 3 ≤ (m.convexToPoint (cvI0 (m.convexOf cv))).length)
    (hbr : m.regionIsIn 0 cv = true)
    (hfresh : cvI0 (m.convexOf cv) ∉ s.junctions)
    (hreg : hasRegionState m s s.fer = false) :
    processI0 m s cv = .error "Error in network labeling: -0 makes no sense" := by
  have h1 : (m.convexToPoint (cvI0 (m.convexOf cv))).length ≠ 1 := by omega
  have h2 : (m.convexToPoint (cvI0 (m.convexOf cv))).length ≠ 2 := by omega
  have h3 : 2 ≤ (m.convexToPoint (cvI0 (m.convexOf cv))).length := by omega
  have hsb : searchBranch m cv = 0 := searchBranch_eq_zero m cv hbr
  simp only [processI0, if_neg h1, if_neg h2, if_pos h3, if_pos hfresh,
    if_neg (by simp [hreg] : ¬ hasRegionState m s s.fer = true), hsb]
  rw [if_neg (lt_irrefl 0)]

/-- Witness for claim C10: on the flipped Y network, branch 0 reaches the
degree-3 junction through i0 and topology construction aborts, both at the
level of the single element and of the whole run. -/
theorem branch_zero_inflow_assertion_failure_witness :
    processI0 yMeshFlipped (initState yMeshFlipped yBCv) 0
      = .error "Error in network labeling: -0 makes no sense" ∧
    buildVesselBoundary yMeshFlipped yBCv
      = .error "Error in network labeling: -0 makes no sense" :=
  ⟨branch_zero_inflow_assertion_failure yMeshFlipped (initState yMeshFlipped yBCv) 0
      (by decide) (by decide) (by decide) (by decide),
   rfl⟩

/-- Every element of a modified list is either an old element or the image
of an old element under the update. -/
theorem mem_listModify {β : Type} (l : List β) (n : ℕ) (f : β → β) :
    ∀ x ∈ listModify l n f, x ∈ l ∨ ∃ y, y ∈ l ∧ x = f y := by
  induction l generalizing n with
  | nil =>
    intro x hx
    simp [listModify] at hx
  | cons a tl ih =>
    cases n with
    | zero =>
      intro x hx
      rcases List.mem_cons.mp hx with h | h
      · exact Or.inr ⟨a, List.mem_cons_self a tl, h⟩
      · exact Or.inl (List.mem_cons_of_mem _ h)
    | succ n =>
      intro x hx
      rcases List.mem_cons.mp hx with h | h
      · exact Or.inl (h ▸ List.mem_cons_self a tl)
      · rcases ih n x h with h2 | ⟨y, hy, hxy⟩
        · exact Or.inl (List.mem_cons_of_mem _ h2)
        · exact Or.inr ⟨y, List.mem_cons_of_mem _ hy, hxy⟩

/-- Attaching a signed entry together with the radius of its branch
preserves the junction-weight invariant. -/
theorem jWeightOk_attach {α : Type} [AddMonoid α] (m : HTMesh α) (J : List (JRecord α))
    (jj : ℕ) (e : ℤ) (r : α) (hr : r = m.R e.natAbs) (h : jWeightOk m J) :
    jWeightOk m (jvAttach J jj e r) := by
  intro j hj
  rcases mem_listModify _ _ _ j hj with hmem | ⟨y, hy, hjy⟩
  · exact h j hmem
  · subst hjy
    have hyv := h y hy
    simp [hyv, hr, List.sum_append]

/-- Appending a freshly created junction record (weight 0, no branches)
preserves the junction-weight invariant. -/
theorem jWeightOk_append_new {α : Type} [AddMonoid α] (m : HTMesh α) (J : List (JRecord α))
    (v rg : ℕ) (h : jWeightOk m J) : jWeightOk m (J ++ [jvNew v rg]) := by
  intro j hj
  rcases List.mem_append.mp hj with hmem | hmem
  · exact h j hmem
  · simp only [List.mem_singleton] at hmem
    subst hmem
    simp [jvNew]

/-- processI0 preserves the junction-weight invariant. -/
theorem processI0_weight {α : Type} [AddMonoid α] (m : HTMesh α) (s : BVBState α) (cv : ℕ)
    (t : BVBState α) (hok : processI0 m s cv = .ok t) (hw : jWeightOk m s.Jv) :
    jWeightOk m t.Jv := by
  simp only [processI0] at hok
  split at hok
  · -- degree-1 case: only BCv fields change
    split at hok
    · exact absurd hok (by simp)
    · cases hok
      exact hw
  · split at hok
    · -- degree-2 case: no-op
      cases hok
      exact hw
    · split at hok
      · -- degree >= 3 case: match on the creation step
        split at hok
        · exact absurd hok (by simp)
        · rename_i s1 heq
          have hw1 : jWeightOk m s1.Jv := by
            split at heq
            · split at heq
              · exact absurd heq (by simp)
              · cases heq
                exact jWeightOk_append_new m s.Jv _ _ hw
            · cases heq
              exact hw
          split at hok
          · cases hok
            exact jWeightOk_attach m s1.Jv _ _ _ (by simp) hw1
          · exact absurd hok (by simp)
      · cases hok
        exact hw

/-- The direction sign only takes the values -1, 1 and 0. -/
theorem inSign_cases (c : Convex) (i : ℕ) :
    inSign c i = -1 ∨ inSign c i = 1 ∨ inSign c i = 0 := by
  unfold inSign
  split
  · exact Or.inl rfl
  · split
    · exact Or.inr (Or.inl rfl)
    · exact Or.inr (Or.inr rfl)

/-- A nonzero direction sign is a unit, so the signed entry keeps the
branch index in absolute value. -/
theorem natAbs_inSign_mul (c : Convex) (i b : ℕ) (h : inSign c i ≠ 0) :
    (inSign c i * (b : ℤ)).natAbs = b := by
  rcases inSign_cases c i with h1 | h1 | h1
  · rw [h1]
    simp
  · rw [h1]
    simp
  · exact absurd h1 h

/-- trivialJunctionStep preserves the junction-weight invariant. -/
theorem trivialJunctionStep_weight {α : Type} [AddMonoid α] (m : HTMesh α)
    (s1 : BVBState α) (i1 fb sb fc sc : ℕ) (t : BVBState α)
    (hok : trivialJunctionStep m s1 i1 fb sb fc sc = .ok t)
    (hw1 : jWeightOk m s1.Jv) : jWeightOk m t.Jv := by
  unfold trivialJunctionStep at hok
  split at hok
  · exact absurd hok (by simp)
  · rename_i hin1
    split at hok
    · exact absurd hok (by simp)
    · rename_i hin2
      cases hok
      refine jWeightOk_attach m _ _ _ _ ?_ ?_
      · rw [natAbs_inSign_mul _ _ _ hin2]
      · refine jWeightOk_attach m _ _ _ _ ?_ ?_
        · rw [natAbs_inSign_mul _ _ _ hin1]
        · exact hw1

/-- processI1 preserves the junction-weight invariant. -/
theorem processI1_weight {α : Type} [AddMonoid α] (m : HTMesh α) (s : BVBState α) (cv : ℕ)
    (t : BVBState α) (hok : processI1 m s cv = .ok t) (hw : jWeightOk m s.Jv) :
    jWeightOk m t.Jv := by
  simp only [processI1] at hok
  split at hok
  · -- degree-1 case: only BCv fields change
    split at hok
    · split at hok
      · exact absurd hok (by simp)
      · cases hok
        exact hw
    · split at hok
      · exact absurd hok (by simp)
      · cases hok
        exact hw
  · split at hok
    · -- degree-2 case: possible trivial junction
      split at hok
      · split at hok
        · split at hok
          · exact absurd hok (by simp)
          · exact trivialJunctionStep_weight m _ _ _ _ _ _ _ hok
              (jWeightOk_append_new m s.Jv _ _ hw)
        · cases hok
          exact hw
      · cases hok
        exact hw
    · split at hok
      · -- degree >= 3 case
        split at hok
        · split at hok
          · exact absurd hok (by simp)
          · cases hok
            refine jWeightOk_attach m _ _ _ _ (by simp) ?_
            exact jWeightOk_append_new m s.Jv _ _ hw
        · cases hok
          exact jWeightOk_attach m s.Jv _ _ _ (by simp) hw
      · cases hok
        exact hw

/-- processConvex preserves the junction-weight invariant: the warning
updates do not touch the junction list, and both endpoint handlers
preserve it. -/
theorem processConvex_weight {α : Type} [AddMonoid α] (m : HTMesh α) (s : BVBState α)
    (cv : ℕ) (t : BVBState α) (hok : processConvex m s cv = .ok t)
    (hw : jWeightOk m s.Jv) : jWeightOk m t.Jv := by
  simp only [processConvex] at hok
  split at hok
  · exact absurd hok (by simp)
  · rename_i s2 heq
    refine processI1_weight m s2 cv t hok ?_
    refine processI0_weight m _ cv s2 heq ?_
    split
    · split
      · exact hw
      · exact hw
    · split
      · exact hw
      · exact hw

/-- The convex loop preserves the junction-weight invariant. -/
theorem processAll_weight {α : Type} [AddMonoid α] (m : HTMesh α) :
    ∀ (l : List ℕ) (s t : BVBState α), processAll m s l = .ok t →
      jWeightOk m s.Jv → jWeightOk m t.Jv := by
  intro l
  induction l with
  | nil =>
    intro s t hok hw
    simp only [processAll] at hok
    cases hok
    exact hw
  | cons cv rest ih =>
    intro s t hok hw
    simp only [processAll] at hok
    split at hok
    · exact absurd hok (by simp)
    · rename_i s1 heq
      exact ih s1 t hok (processConvex_weight m s cv s1 heq hw)

/-- Claim C8: after a successful topology construction, every junction
record weighs precisely the sum of the radii of the branches in its
incident-branch list, one radius contribution per listed entry. -/
theorem junction_weight_is_radius_sum {α : Type} [AddMonoid α] (m : HTMesh α)
    (BCv0 : List (BCRecord α)) (s : BVBState α)
    (hok : buildVesselBoundary m BCv0 = .ok s) :
    jWeightOk m s.Jv := by
  unfold buildVesselBoundary at hok
  split at hok
  · exact absurd hok (by simp)
  · refine processAll_weight m m.convexList (initState m BCv0) s hok ?_
    intro j hj
    simp [initState] at hj

/-- Witness for claim C8: on the 3-branch Y network the run succeeds, the
invariant holds, and the single junction weighs the sum of the three
branch radii 1 + 2 + 3. -/
theorem junction_weight_is_radius_sum_witness :
    jWeightOk yMesh (stateOf (buildVesselBoundary yMesh yBCv)).Jv ∧
    (stateOf (buildVesselBoundary yMesh yBCv)).Jv.map (fun j => j.value)
      = [yMesh.R 0 + yMesh.R 1 + yMesh.R 2] :=
  ⟨junction_weight_is_radius_sum yMesh yBCv (stateOf (buildVesselBoundary yMesh yBCv)) rfl,
   by decide⟩

end HaimaSpec
